import Mathlib

/-!
Shallow embedding of the two core components of the repository:

* `Rollback` — `scripts/rollback_manager.py` (`RollbackManager`): a
  manifest-driven snapshot-and-restore engine over a local filesystem.
* `AgentReuse` — `scripts/agent_reuse.py` (`AgentReuseManager`): a persisted
  configuration store with a similarity-search index.

The filesystem is modelled as an association list from (relative) paths to
file contents, together with a list of "failing" paths at which write and
delete system calls raise an exception; this models the `try/except` blocks
of the Python code.  JSON documents on disk are modelled as typed values; a
stored document is either parseable or corrupt, modelling the broad
`except:` handlers around `json.load`.  Timestamps (`datetime.now()`) are
passed in as explicit string parameters.  Floats are modelled as exact
rationals (`ℚ`); `round(x, 2)` is modelled as rounding to the nearest
hundredth.
-/

namespace Rollback

/-- Update an association list at a key, replacing the existing binding if
present and appending otherwise. -/
def assocSet (l : List (String × String)) (k v : String) : List (String × String) :=
  match l with
  | [] => [(k, v)]
  | (k₀, v₀) :: rest =>
    if k₀ = k then (k, v) :: rest else (k₀, v₀) :: assocSet rest k v

/-- Look up a key in an association list. -/
def assocGet (l : List (String × String)) (k : String) : Option String :=
  match l with
  | [] => none
  | (k₀, v₀) :: rest => if k₀ = k then some v₀ else assocGet rest k

/-- The local filesystem: bindings from path to content, plus the set of
paths at which a write or delete raises an exception. -/
structure FS where
  files : List (String × String)
  failing : List String
deriving Repr, DecidableEq

/-- Content of a file, `none` when the path does not exist. -/
def fsRead (fs : FS) (p : String) : Option String :=
  assocGet fs.files p

/-- `Path.exists()`. -/
def fsExistsB (fs : FS) (p : String) : Bool :=
  (fsRead fs p).isSome

/-- `shutil.copy2`-style write of `c` to path `p`; raises (returns `none`)
when `p` is a failing path. -/
def fsWrite (fs : FS) (p c : String) : Option FS :=
  if p ∈ fs.failing then none
  else some { fs with files := assocSet fs.files p c }

/-- `Path.unlink()`; raises (returns `none`) when `p` is a failing path. -/
def fsDelete (fs : FS) (p : String) : Option FS :=
  if p ∈ fs.failing then none
  else some { fs with files := fs.files.filter (fun kv => kv.1 ≠ p) }

/-- The backup manifest document (`manifest.json`), as written by
`RollbackManager.create_backup`. -/
structure Manifest where
  backup_id : String
  session_id : String
  created_at : String
  description : String
  backed_up_files : List String
  created_files : List String
  can_rollback : Bool
  rolled_back_at : Option String
deriving Repr, DecidableEq

/-- The mutable state a `RollbackManager` works on: the user-visible
filesystem, the manifest document (`none` when missing or unparseable, as
in `_load_manifest`), and the backup-id-scoped snapshot tree (a map from
the original relative path to the captured content). -/
structure State where
  fs : FS
  manifest : Option Manifest
  snapshots : List (String × String)
deriving Repr, DecidableEq

/-- `RollbackManager.create_backup`: writes a fresh manifest with empty
tracking sets and `can_rollback = True`; `backup_id` and `created_at` come
from `datetime.now()` and are passed in explicitly. -/
def createBackup (st : State) (sessionId backupId now description : String) : State :=
  { st with
    manifest := some
      { backup_id := backupId
        session_id := sessionId
        created_at := now
        description := description
        backed_up_files := []
        created_files := []
        can_rollback := true
        rolled_back_at := none }
    snapshots := [] }

/-- `RollbackManager.track_file_creation`: appends the path to
`created_files` unless already present, then saves the manifest. -/
def trackFileCreation (st : State) (p : String) : State :=
  match st.manifest with
  | none => st
  | some m =>
    let created := if p ∈ m.created_files then m.created_files else m.created_files ++ [p]
    { st with manifest := some { m with created_files := created } }

/-- `RollbackManager.backup_file_before_change`: returns unchanged when the
manifest is missing or the source path does not exist; otherwise copies the
current content of `p` into the backup tree (`shutil.copy2`, overwriting
any existing snapshot at the same destination) and appends `p` to
`backed_up_files` unless already present.  Paths are taken to be already
relative, matching the `rel_path` computation of the source. -/
def backupFileBeforeChange (st : State) (p : String) : State :=
  match st.manifest with
  | none => st
  | some m =>
    match fsRead st.fs p with
    | none => st
    | some content =>
      let backed := if p ∈ m.backed_up_files then m.backed_up_files else m.backed_up_files ++ [p]
      { st with
        snapshots := assocSet st.snapshots p content
        manifest := some { m with backed_up_files := backed } }

/-- The dictionary returned by `RollbackManager.rollback` on the main path. -/
structure RollbackReport where
  success : Bool
  files_restored : List String
  files_deleted : List String
  errors : List String
deriving Repr, DecidableEq

/-- The three shapes of `RollbackManager.rollback`'s return value: the
no-manifest error dictionary, the already-rolled-back error dictionary, and
the full report. -/
inductive RollbackResult where
  | noBackup
  | alreadyRolledBack
  | report (r : RollbackReport)
deriving Repr, DecidableEq

/-- The restore loop of `rollback`: for each backed-up path, restore the
snapshot if it exists in the backup tree, recording an error when the
snapshot is missing or the write raises.  Returns the filesystem, the
restored paths and the errors, each in loop order.  The source suffixes
write-failure messages with the exception text (`str(e)`); the model keeps
only the fixed prefix and the path. -/
def restoreLoop (snaps : List (String × String)) (fs : FS) :
    List String → FS × List String × List String
  | [] => (fs, [], [])
  | p :: ps =>
    match assocGet snaps p with
    | some content =>
      match fsWrite fs p content with
      | some fs₁ =>
        let (fs₂, r, e) := restoreLoop snaps fs₁ ps
        (fs₂, p :: r, e)
      | none =>
        let (fs₂, r, e) := restoreLoop snaps fs ps
        (fs₂, r, ("Error restoring " ++ p) :: e)
    | none =>
      let (fs₂, r, e) := restoreLoop snaps fs ps
      (fs₂, r, ("Backup not found: " ++ p) :: e)

/-- The delete loop of `rollback`: for each created path, delete it if it
currently exists (a missing file is skipped silently), recording an error
when the delete raises. -/
def deleteLoop (fs : FS) : List String → FS × List String × List String
  | [] => (fs, [], [])
  | p :: ps =>
    if fsExistsB fs p then
      match fsDelete fs p with
      | some fs₁ =>
        let (fs₂, d, e) := deleteLoop fs₁ ps
        (fs₂, p :: d, e)
      | none =>
        let (fs₂, d, e) := deleteLoop fs ps
        (fs₂, d, ("Error deleting " ++ p) :: e)
    else deleteLoop fs ps

/-- `RollbackManager.rollback`: fails when the manifest is missing or
`can_rollback` is false; otherwise restores every backed-up path, deletes
every created path, marks the manifest rolled back unconditionally, and
reports success iff no errors were collected. -/
def rollback (st : State) (now : String) : State × RollbackResult :=
  match st.manifest with
  | none => (st, .noBackup)
  | some m =>
    if m.can_rollback then
      let (fs₁, restored, rerrs) := restoreLoop st.snapshots st.fs m.backed_up_files
      let (fs₂, deleted, derrs) := deleteLoop fs₁ m.created_files
      let errs := rerrs ++ derrs
      let m₁ := { m with can_rollback := false, rolled_back_at := some now }
      ({ st with fs := fs₂, manifest := some m₁ },
       .report
         { success := errs.isEmpty
           files_restored := restored
           files_deleted := deleted
           errors := errs })
    else (st, .alreadyRolledBack)

/-- The caller overwriting a file on disk (outside the manager): a plain
filesystem update. -/
def userWrite (st : State) (p c : String) : State :=
  { st with fs := { st.fs with files := assocSet st.fs.files p c } }

end Rollback

namespace AgentReuse

/-- A query descriptor (`project_info` in `AgentReuseManager`); dictionary
lookups `project_info.get('project_type')` and
`project_info.get('tech_stack', [])` are modelled by an optional type and a
list defaulting to `[]`. -/
structure ProjectInfo where
  project_type : Option String
  tech_stack : List String
deriving Repr, DecidableEq

/-- A valid configuration payload as documented by
`AgentReuseManager.save_configuration` (all documented keys present). -/
structure ConfigPayload where
  project_type : String
  project_name : String
  tech_stack : List String
  agents_used : List String
  skills_generated : List String
  commands_generated : List String
  hooks_generated : List String
  success_metrics : List (String × Int)
  user_satisfaction : Int
deriving Repr, DecidableEq

/-- A full stored configuration record: the payload plus the metadata added
by `save_configuration` (`config_id`, `created_at`, `reuse_count`). -/
structure ConfigRecord where
  payload : ConfigPayload
  config_id : String
  created_at : String
  reuse_count : Nat
deriving Repr, DecidableEq

/-- A configuration index entry, the projection appended to `index.json` by
`save_configuration`. -/
structure IndexEntry where
  config_id : String
  project_type : String
  project_name : String
  tech_stack : List String
  created_at : String
  reuse_count : Nat
deriving Repr, DecidableEq

/-- A persisted per-record JSON document: either parseable to a record or
corrupt (present on disk but `json.load` raises). -/
inductive Doc where
  | parsed (c : ConfigRecord)
  | corrupt
deriving Repr, DecidableEq

/-- The store state: the in-memory index (`self.index['configurations']`)
and the per-record documents keyed by configuration id. -/
structure Store where
  index : List IndexEntry
  docs : List (String × Doc)
deriving Repr, DecidableEq

/-- Look up a per-record document by id. -/
def docGet (l : List (String × Doc)) (k : String) : Option Doc :=
  match l with
  | [] => none
  | (k₀, v₀) :: rest => if k₀ = k then some v₀ else docGet rest k

/-- Update the per-record documents at a key, replacing any existing
binding (the file at `{config_id}.json` is overwritten). -/
def docSet (l : List (String × Doc)) (k : String) (v : Doc) : List (String × Doc) :=
  match l with
  | [] => [(k, v)]
  | (k₀, v₀) :: rest =>
    if k₀ = k then (k, v) :: rest else (k₀, v₀) :: docSet rest k v

/-- `AgentReuseManager._load_configuration`: `none` when the file is absent,
and also `none` when the file exists but fails to parse, because of the
broad `except: return None`. -/
def loadConfiguration (s : Store) (id : String) : Option ConfigRecord :=
  match docGet s.docs id with
  | none => none
  | some (.parsed c) => some c
  | some .corrupt => none

/-- The on-disk index document: absent, parseable, or corrupt. -/
inductive IndexDoc where
  | parsed (entries : List IndexEntry)
  | corrupt
deriving Repr, DecidableEq

/-- `AgentReuseManager._load_index`: a missing index file and an index file
that fails to parse both yield the empty configuration list, because of the
broad `except: return {'configurations': []}`. -/
def loadIndex (d : Option IndexDoc) : List IndexEntry :=
  match d with
  | none => []
  | some (.parsed entries) => entries
  | some .corrupt => []

/-- Python's binary `min` on rationals, written out so that concrete
instances reduce by `decide`. -/
def ratMin (a b : ℚ) : ℚ := if a ≤ b then a else b

theorem ratMin_eq_min (a b : ℚ) : ratMin a b = min a b := (min_def a b).symm

/-- `AgentReuseManager._calculate_similarity`: 0.4 for an exact
`project_type` match, plus 0.4 times the Jaccard index of the two tech
stacks when both are non-empty, clamped by `min(score, 1.0)`.  Floats are
modelled as exact rationals; the weights dictionary values 0.4 / 0.4 / 0.2
appear as `2/5` (the 0.2 "size" weight is never awarded, as in the
source). -/
def calcSimilarity (pi : ProjectInfo) (c : ConfigRecord) : ℚ :=
  let typeScore : ℚ :=
    if pi.project_type = some c.payload.project_type then 2/5 else 0
  let ps := pi.tech_stack.toFinset
  let cs := c.payload.tech_stack.toFinset
  let techScore : ℚ :=
    if ps.card ≠ 0 ∧ cs.card ≠ 0 then
      let inter := (ps ∩ cs).card
      let uni := (ps ∪ cs).card
      let techSimilarity : ℚ := if uni > 0 then (inter : ℚ) / (uni : ℚ) else 0
      2/5 * techSimilarity
    else 0
  ratMin (typeScore + techScore) 1

/-- Python's `round(x, 2)` modelled on exact rationals: round `100 * x` to
the nearest integer (half rounded up; the half-to-even difference is not
exercised by any statement below) and divide by 100. -/
def round2 (q : ℚ) : ℚ :=
  (((100 * q + 1/2).floor : ℤ) : ℚ) / 100

/-- One element of the list returned by `find_similar_configurations`: the
index entry fields, the rounded similarity, and the full record. -/
structure SimilarResult where
  entry : IndexEntry
  similarity : ℚ
  full_config : ConfigRecord
deriving Repr, DecidableEq

/-- The scan loop of `find_similar_configurations`: walk the index entries
in order, skip entries whose record fails to load, keep those whose
(unrounded) similarity is at least `minSim`, carrying the similarity
rounded to two decimals. -/
def scanIndex (s : Store) (pi : ProjectInfo) (minSim : ℚ) :
    List IndexEntry → List SimilarResult
  | [] => []
  | ref :: rest =>
    match loadConfiguration s ref.config_id with
    | none => scanIndex s pi minSim rest
    | some config =>
      let sim := calcSimilarity pi config
      if minSim ≤ sim then
        ⟨ref, round2 sim, config⟩ :: scanIndex s pi minSim rest
      else scanIndex s pi minSim rest

/-- Stable insertion of `x` into a list sorted descending by `key`: `x`
goes before the first element whose key is at most `key x`, so among equal
keys the inserted (originally earlier) element comes first. -/
def insertDesc (key : SimilarResult → ℚ) (x : SimilarResult) :
    List SimilarResult → List SimilarResult
  | [] => [x]
  | y :: ys => if key y ≤ key x then x :: y :: ys else y :: insertDesc key x ys

/-- Stable sort descending by `key`, modelling Python's stable
`list.sort(key=..., reverse=True)`: same key order, equal keys kept in
input order (any stable sort produces this unique output). -/
def sortDesc (key : SimilarResult → ℚ) : List SimilarResult → List SimilarResult
  | [] => []
  | x :: xs => insertDesc key x (sortDesc key xs)

/-- The similarity field carried by a result, the sorting key of
`find_similar_configurations`. -/
def simKey (r : SimilarResult) : ℚ := r.similarity

/-- The filtered list before sorting, in original index order. -/
def findSimilarUnsorted (s : Store) (pi : ProjectInfo) (minSim : ℚ) : List SimilarResult :=
  scanIndex s pi minSim s.index

/-- `AgentReuseManager.find_similar_configurations`: score every index
entry, keep those with similarity at least `minSim`, sort by the carried
(rounded) similarity descending with a stable sort. -/
def findSimilar (s : Store) (pi : ProjectInfo) (minSim : ℚ) : List SimilarResult :=
  sortDesc simKey (findSimilarUnsorted s pi minSim)

/-- `AgentReuseManager.save_configuration`: builds the full record by
adding `config_id`, `created_at` and `reuse_count = 0` to the payload,
writes the per-record document, and appends the matching index entry;
`config_id` and `created_at` come from `datetime.now()` and are passed in
explicitly. -/
def saveConfiguration (s : Store) (cfg : ConfigPayload) (id now : String) :
    String × Store :=
  let record : ConfigRecord :=
    { payload := cfg, config_id := id, created_at := now, reuse_count := 0 }
  let entry : IndexEntry :=
    { config_id := id
      project_type := cfg.project_type
      project_name := cfg.project_name
      tech_stack := cfg.tech_stack
      created_at := now
      reuse_count := 0 }
  (id, { index := s.index ++ [entry], docs := docSet s.docs id (.parsed record) })

/-- `AgentReuseManager.reuse_configuration`: returns `none` and leaves the
store untouched when the record cannot be loaded; otherwise increments
`reuse_count` on the full record, rewrites its document, increments
`reuse_count` on every index entry with the same id, and returns the
incremented record. -/
def reuseConfiguration (s : Store) (id : String) : Option ConfigRecord × Store :=
  match loadConfiguration s id with
  | none => (none, s)
  | some cfg =>
    let cfg₁ := { cfg with reuse_count := cfg.reuse_count + 1 }
    let index₁ := s.index.map fun e =>
      if e.config_id = id then { e with reuse_count := e.reuse_count + 1 } else e
    (some cfg₁, { index := index₁, docs := docSet s.docs id (.parsed cfg₁) })

/-- `n` successive calls of `reuse_configuration` on the same id. -/
def reuseN (s : Store) (id : String) : Nat → Store
  | 0 => s
  | n + 1 => (reuseConfiguration (reuseN s id n) id).2

/-- Modelled from the spec (§4.2 SimilarityMatcher), for comparison with
`calcSimilarity`: a weighted sum of +0.4 for exact project-type equality
and +0.4 times the Jaccard index of the tech stacks when both are
non-empty, clamped into [0, 1]. -/
def specSimilarity (pi : ProjectInfo) (c : ConfigRecord) : ℚ :=
  let ps := pi.tech_stack.toFinset
  let cs := c.payload.tech_stack.toFinset
  let typeTerm : ℚ := if pi.project_type = some c.payload.project_type then 2/5 else 0
  let jaccardTerm : ℚ :=
    if ps.Nonempty ∧ cs.Nonempty then 2/5 * ((ps ∩ cs).card : ℚ) / ((ps ∪ cs).card : ℚ)
    else 0
  max 0 (min (typeTerm + jaccardTerm) 1)

end AgentReuse

namespace Rollback

theorem assocGet_filter_ne_of_none {l : List (String × String)} {p : String}
    (h : assocGet l p = none) (f : String × String → Bool) :
    assocGet (l.filter f) p = none := by
  induction l with
  | nil => simp [assocGet]
  | cons kv rest ih =>
    simp only [assocGet] at h
    by_cases hk : kv.1 = p
    · simp [hk] at h
    · have h₁ : assocGet rest p = none := by
        simpa [assocGet, hk] using h
      by_cases hf : f kv
      · simpa [List.filter, hf, assocGet, hk] using ih h₁
      · simpa [List.filter, hf] using ih h₁

theorem fsRead_fsDelete_of_none {fs fs₁ : FS} {p q : String}
    (h : fsRead fs p = none) (hd : fsDelete fs q = some fs₁) :
    fsRead fs₁ p = none := by
  unfold fsDelete at hd
  by_cases hq : q ∈ fs.failing
  · simp [hq] at hd
  · simp only [hq, if_false, Option.some.injEq] at hd
    subst hd
    exact assocGet_filter_ne_of_none h _

theorem deleteLoop_preserves_absent {p : String} :
    ∀ (ps : List String) (fs : FS), fsRead fs p = none →
      fsRead (deleteLoop fs ps).1 p = none := by
  intro ps
  induction ps with
  | nil => intro fs h; simpa [deleteLoop] using h
  | cons q qs ih =>
    intro fs h
    simp only [deleteLoop]
    by_cases he : fsExistsB fs q
    · simp only [he, if_true]
      cases hd : fsDelete fs q with
      | some fs₁ =>
        have h₁ : fsRead fs₁ p = none := fsRead_fsDelete_of_none h hd
        simpa [hd] using ih fs₁ h₁
      | none =>
        simpa [hd] using ih fs h
    · simpa [he] using ih fs h

theorem restoreLoop_covers {snaps : List (String × String)} {p : String} :
    ∀ (ps : List String) (fs : FS), p ∈ ps →
      p ∈ (restoreLoop snaps fs ps).2.1 ∨
      ("Backup not found: " ++ p) ∈ (restoreLoop snaps fs ps).2.2 ∨
      ("Error restoring " ++ p) ∈ (restoreLoop snaps fs ps).2.2 := by
  intro ps
  induction ps with
  | nil => intro fs h; cases h
  | cons q qs ih =>
    intro fs hmem
    rcases List.mem_cons.mp hmem with hpq | hrest
    · subst hpq
      simp only [restoreLoop]
      cases hs : assocGet snaps p with
      | some content =>
        cases hw : fsWrite fs p content with
        | some fs₁ => simp [hs, hw]
        | none => simp [hs, hw]
      | none => simp [hs]
    · simp only [restoreLoop]
      cases hs : assocGet snaps q with
      | some content =>
        cases hw : fsWrite fs q content with
        | some fs₁ => rcases ih fs₁ hrest with h | h | h <;> simp [hs, hw, h]
        | none => rcases ih fs hrest with h | h | h <;> simp [hs, hw, h]
      | none => rcases ih fs hrest with h | h | h <;> simp [hs, h]

theorem deleteLoop_covers {p : String} :
    ∀ (ps : List String) (fs : FS), p ∈ ps →
      p ∈ (deleteLoop fs ps).2.1 ∨
      ("Error deleting " ++ p) ∈ (deleteLoop fs ps).2.2 ∨
      fsRead (deleteLoop fs ps).1 p = none := by
  intro ps
  induction ps with
  | nil => intro fs h; cases h
  | cons q qs ih =>
    intro fs hmem
    rcases List.mem_cons.mp hmem with hpq | hrest
    · subst hpq
      simp only [deleteLoop]
      by_cases he : fsExistsB fs p
      · simp only [he, if_true]
        cases hd : fsDelete fs p with
        | some fs₁ => simp [hd]
        | none => simp [hd]
      · simp only [he, if_false]
        have habs : fsRead fs p = none := by
          cases hr : fsRead fs p with
          | none => rfl
          | some c => exact absurd (by simp [fsExistsB, hr]) he
        exact Or.inr (Or.inr (deleteLoop_preserves_absent qs fs habs))
    · simp only [deleteLoop]
      by_cases he : fsExistsB fs q
      · simp only [he, if_true]
        cases hd : fsDelete fs q with
        | some fs₁ => rcases ih fs₁ hrest with h | h | h <;> simp [hd, h]
        | none => rcases ih fs hrest with h | h | h <;> simp [hd, h]
      · simp only [he, if_false]
        exact ih fs hrest

end Rollback

namespace Rollback

theorem rollback_of_not_can {st : State} {m : Manifest} (now : String)
    (h : st.manifest = some m) (hc : m.can_rollback = false) :
    rollback st now = (st, .alreadyRolledBack) := by
  simp [rollback, h, hc]

theorem rollback_eq_of_can {st : State} {m : Manifest} (now : String)
    (h : st.manifest = some m) (hc : m.can_rollback = true) :
    rollback st now =
      ({ st with
          fs := (deleteLoop (restoreLoop st.snapshots st.fs m.backed_up_files).1
            m.created_files).1
          manifest := some { m with can_rollback := false, rolled_back_at := some now } },
       .report
         { success := ((restoreLoop st.snapshots st.fs m.backed_up_files).2.2 ++
             (deleteLoop (restoreLoop st.snapshots st.fs m.backed_up_files).1
               m.created_files).2.2).isEmpty
           files_restored := (restoreLoop st.snapshots st.fs m.backed_up_files).2.1
           files_deleted := (deleteLoop (restoreLoop st.snapshots st.fs m.backed_up_files).1
             m.created_files).2.1
           errors := (restoreLoop st.snapshots st.fs m.backed_up_files).2.2 ++
             (deleteLoop (restoreLoop st.snapshots st.fs m.backed_up_files).1
               m.created_files).2.2 }) := by
  simp [rollback, h, hc]

/-- Claim C2: rollback is one-shot.  With a manifest present, (1) when
`can_rollback` is already false a rollback call returns the
already-rolled-back error and leaves the state (manifest, snapshots and
filesystem) entirely unchanged; (2) when `can_rollback` is true the call
leaves a manifest with `can_rollback = false` and a second rollback on the
resulting state fails with the already-rolled-back error while changing
nothing; (3) the tracking operations never change `can_rollback`, so no
operation ever takes it from false back to true. -/
theorem rollback_is_one_shot (st : State) (m : Manifest) (now later : String)
    (h : st.manifest = some m) :
    (m.can_rollback = false → rollback st now = (st, .alreadyRolledBack)) ∧
    (m.can_rollback = true →
      ∃ m₁, (rollback st now).1.manifest = some m₁ ∧ m₁.can_rollback = false ∧
        rollback (rollback st now).1 later = ((rollback st now).1, .alreadyRolledBack)) ∧
    (∀ p, (trackFileCreation st p).manifest.map Manifest.can_rollback =
        some m.can_rollback ∧
      (backupFileBeforeChange st p).manifest.map Manifest.can_rollback =
        some m.can_rollback) := by
  refine ⟨fun hc => rollback_of_not_can now h hc, fun hc => ?_, fun p => ⟨?_, ?_⟩⟩
  · refine ⟨{ m with can_rollback := false, rolled_back_at := some now }, ?_, rfl, ?_⟩
    · rw [rollback_eq_of_can now h hc]
    · exact rollback_of_not_can later (by rw [rollback_eq_of_can now h hc]) rfl
  · simp [trackFileCreation, h]
  · unfold backupFileBeforeChange
    rw [h]
    cases hr : fsRead st.fs p with
    | none => simp [h]
    | some c => simp

/-- Claim C3: with a manifest present and `can_rollback` true, rollback
produces a full report: the manifest is marked rolled back (with
`rolled_back_at` stamped) unconditionally; `success` is true iff the
aggregated error list is empty; every backed-up path is attempted (it ends
up restored, or contributes a missing-snapshot or write-failure error);
every created path is attempted (it ends up deleted, contributes a
delete-failure error, or was already absent — absent files are not errors,
and the path is absent in the final filesystem). -/
theorem rollback_full_attempt_aggregation (st : State) (m : Manifest) (now : String)
    (h : st.manifest = some m) (hc : m.can_rollback = true) :
    ∃ st₁ r, rollback st now = (st₁, .report r) ∧
      st₁.manifest = some { m with can_rollback := false, rolled_back_at := some now } ∧
      (r.success = true ↔ r.errors = []) ∧
      (∀ p ∈ m.backed_up_files,
        p ∈ r.files_restored ∨ ("Backup not found: " ++ p) ∈ r.errors ∨
          ("Error restoring " ++ p) ∈ r.errors) ∧
      (∀ p ∈ m.created_files,
        p ∈ r.files_deleted ∨ ("Error deleting " ++ p) ∈ r.errors ∨
          fsRead st₁.fs p = none) := by
  rw [rollback_eq_of_can now h hc]
  refine ⟨_, _, rfl, rfl, by simp [List.isEmpty_iff], fun p hp => ?_, fun p hp => ?_⟩
  · rcases @restoreLoop_covers st.snapshots p m.backed_up_files st.fs hp
      with h₁ | h₁ | h₁
    · exact Or.inl h₁
    · exact Or.inr (Or.inl (List.mem_append_left _ h₁))
    · exact Or.inr (Or.inr (List.mem_append_left _ h₁))
  · rcases @deleteLoop_covers p m.created_files
      (restoreLoop st.snapshots st.fs m.backed_up_files).1 hp with h₁ | h₁ | h₁
    · exact Or.inl h₁
    · exact Or.inr (Or.inl (List.mem_append_right _ h₁))
    · exact Or.inr (Or.inr h₁)

/-- Claim C10: calling `backup_file_before_change` on a path that does not
currently exist on disk is a complete no-op: the state (snapshot tree,
manifest document, filesystem) is returned unchanged and no error is
raised (the function is total). -/
theorem track_missing_path_noop (st : State) (p : String)
    (h : fsExistsB st.fs p = false) : backupFileBeforeChange st p = st := by
  have hr : fsRead st.fs p = none := by
    cases hr : fsRead st.fs p with
    | none => rfl
    | some c => rw [fsExistsB, hr] at h; cases h
  unfold backupFileBeforeChange
  cases hm : st.manifest with
  | none => rfl
  | some m => rw [hr]

/-- A concrete manifest in the freshly-created state. -/
def freshManifest : Manifest :=
  { backup_id := "b1"
    session_id := "s1"
    created_at := "t0"
    description := "test"
    backed_up_files := []
    created_files := []
    can_rollback := true
    rolled_back_at := none }

/-- A concrete starting state: `a.txt` holds `"orig"`, fresh manifest, no
snapshots, no failing paths. -/
def doubleTrackStart : State :=
  { fs := { files := [("a.txt", "orig")], failing := [] }
    manifest := some freshManifest
    snapshots := [] }

/-- State after tracking `a.txt` once and then rewriting it to `"new"`. -/
def doubleTrackMid : State :=
  userWrite (backupFileBeforeChange doubleTrackStart "a.txt") "a.txt" "new"

/-- State after the second `track_modification("a.txt")` call. -/
def doubleTrackAfter : State :=
  backupFileBeforeChange doubleTrackMid "a.txt"

/-- Claim C1 (evaluated at the failing input): calling
`backup_file_before_change` a second time on `a.txt` after the file was
rewritten is not a no-op — it overwrites the snapshot with the rewritten
content, because `shutil.copy2` runs before the membership check on
`backed_up_files` — and the subsequent rollback restores the second
observed content `"new"`, not the first observed content `"orig"` as the
claim states. -/
theorem second_track_overwrites_snapshot :
    doubleTrackAfter.snapshots = [("a.txt", "new")] ∧
    backupFileBeforeChange doubleTrackMid "a.txt" ≠ doubleTrackMid ∧
    fsRead (rollback doubleTrackAfter "t1").1.fs "a.txt" = some "new" ∧
    ¬ fsRead (rollback doubleTrackAfter "t1").1.fs "a.txt" = some "orig" := by
  refine ⟨by decide, by decide, by decide, by decide⟩

end Rollback

namespace AgentReuse

theorem docGet_docSet_self (l : List (String × Doc)) (k : String) (v : Doc) :
    docGet (docSet l k v) k = some v := by
  induction l with
  | nil => simp [docSet, docGet]
  | cons kv rest ih =>
    by_cases hk : kv.1 = k
    · simp [docSet, docGet, hk]
    · simp [docSet, docGet, hk, ih]

theorem scanIndex_mem {s : Store} {pi : ProjectInfo} {minSim : ℚ} {r : SimilarResult} :
    ∀ {l : List IndexEntry}, r ∈ scanIndex s pi minSim l →
      minSim ≤ calcSimilarity pi r.full_config ∧
      r.similarity = round2 (calcSimilarity pi r.full_config) := by
  intro l
  induction l with
  | nil => intro h; cases h
  | cons ref rest ih =>
    intro h
    simp only [scanIndex] at h
    cases hc : loadConfiguration s ref.config_id with
    | none => rw [hc] at h; exact ih h
    | some config =>
      simp only [hc] at h
      by_cases hle : minSim ≤ calcSimilarity pi config
      · rw [if_pos hle] at h
        rcases List.mem_cons.mp h with h₁ | h₁
        · subst h₁; exact ⟨hle, rfl⟩
        · exact ih h₁
      · rw [if_neg hle] at h
        exact ih h

theorem insertDesc_mem {key : SimilarResult → ℚ} {x a : SimilarResult} :
    ∀ {l : List SimilarResult}, a ∈ insertDesc key x l ↔ a = x ∨ a ∈ l := by
  intro l
  induction l with
  | nil => simp [insertDesc]
  | cons y ys ih =>
    by_cases hk : key y ≤ key x
    · simp [insertDesc, hk, List.mem_cons]
    · simp only [insertDesc, if_neg hk, List.mem_cons, ih]
      tauto

theorem insertDesc_pairwise {key : SimilarResult → ℚ} {x : SimilarResult} :
    ∀ {l : List SimilarResult},
      l.Pairwise (fun a b => key b ≤ key a) →
      (insertDesc key x l).Pairwise (fun a b => key b ≤ key a) := by
  intro l
  induction l with
  | nil => intro _; simp [insertDesc]
  | cons y ys ih =>
    intro h
    rcases List.pairwise_cons.mp h with ⟨hy, hys⟩
    by_cases hk : key y ≤ key x
    · rw [insertDesc, if_pos hk]
      refine List.pairwise_cons.mpr ⟨?_, h⟩
      intro b hb
      rcases List.mem_cons.mp hb with h₁ | h₁
      · subst h₁; exact hk
      · exact le_trans (hy b h₁) hk
    · rw [insertDesc, if_neg hk]
      refine List.pairwise_cons.mpr ⟨?_, ih hys⟩
      intro b hb
      rcases insertDesc_mem.mp hb with h₁ | h₁
      · subst h₁; exact le_of_not_le hk
      · exact hy b h₁

theorem sortDesc_pairwise {key : SimilarResult → ℚ} :
    ∀ (l : List SimilarResult),
      (sortDesc key l).Pairwise (fun a b => key b ≤ key a) := by
  intro l
  induction l with
  | nil => simp [sortDesc]
  | cons x xs ih => exact insertDesc_pairwise ih

theorem sortDesc_mem {key : SimilarResult → ℚ} {a : SimilarResult} :
    ∀ {l : List SimilarResult}, a ∈ sortDesc key l ↔ a ∈ l := by
  intro l
  induction l with
  | nil => simp [sortDesc]
  | cons x xs ih =>
    simp only [sortDesc, insertDesc_mem, List.mem_cons, ih]

theorem filter_insertDesc (key : SimilarResult → ℚ) (x : SimilarResult) (q : ℚ) :
    ∀ (l : List SimilarResult),
      (insertDesc key x l).filter (fun r => decide (key r = q)) =
        (if key x = q then [x] else []) ++ l.filter (fun r => decide (key r = q)) := by
  intro l
  induction l with
  | nil => by_cases hx : key x = q <;> simp [insertDesc, List.filter, hx]
  | cons y ys ih =>
    by_cases hk : key y ≤ key x
    · rw [insertDesc, if_pos hk]
      by_cases hx : key x = q <;> simp [List.filter_cons, hx]
    · have hlt : key x < key y := lt_of_not_le hk
      rw [insertDesc, if_neg hk]
      by_cases hy : key y = q
      · have hx : ¬ key x = q := fun h => ne_of_gt hlt (hy.trans h.symm)
        simp [List.filter_cons, hy, hx, ih]
      · simp [List.filter_cons, hy, ih]

theorem filter_sortDesc (key : SimilarResult → ℚ) (q : ℚ) :
    ∀ (l : List SimilarResult),
      (sortDesc key l).filter (fun r => decide (key r = q)) =
        l.filter (fun r => decide (key r = q)) := by
  intro l
  induction l with
  | nil => rfl
  | cons x xs ih =>
    rw [sortDesc, filter_insertDesc]
    by_cases hx : key x = q <;> simp [List.filter_cons, hx, ih]

end AgentReuse

namespace AgentReuse

/-- The query formed from a record's own fields, used to state the
self-match property `score(A, A)`. -/
def selfQuery (c : ConfigRecord) : ProjectInfo :=
  ⟨some c.payload.project_type, c.payload.tech_stack⟩

theorem calcSimilarity_eq_spec_and_bounds (qi : ProjectInfo) (c : ConfigRecord) :
    calcSimilarity qi c = specSimilarity qi c ∧
    0 ≤ calcSimilarity qi c ∧ calcSimilarity qi c ≤ 4/5 := by
  classical
  set ps := qi.tech_stack.toFinset with hps
  set cs := c.payload.tech_stack.toFinset with hcs
  set t : ℚ := if qi.project_type = some c.payload.project_type then 2/5 else 0 with ht
  have ht0 : 0 ≤ t := by rw [ht]; split_ifs <;> norm_num
  have ht1 : t ≤ 2/5 := by rw [ht]; split_ifs <;> norm_num
  by_cases hcond : ps.card ≠ 0 ∧ cs.card ≠ 0
  · have hpsne : ps.Nonempty := Finset.card_pos.mp (Nat.pos_of_ne_zero hcond.1)
    have hcsne : cs.Nonempty := Finset.card_pos.mp (Nat.pos_of_ne_zero hcond.2)
    have huni : 0 < (ps ∪ cs).card :=
      Finset.card_pos.mpr (hpsne.mono Finset.subset_union_left)
    have huniq : (0:ℚ) < ((ps ∪ cs).card : ℚ) := by exact_mod_cast huni
    have hfrac0 : (0:ℚ) ≤ ((ps ∩ cs).card : ℚ) / ((ps ∪ cs).card : ℚ) :=
      div_nonneg (by positivity) (le_of_lt huniq)
    have hfrac1 : ((ps ∩ cs).card : ℚ) / ((ps ∪ cs).card : ℚ) ≤ 1 := by
      rw [div_le_one huniq]
      exact_mod_cast Finset.card_le_card Finset.inter_subset_union
    have hmul1 : 2/5 * (((ps ∩ cs).card : ℚ) / ((ps ∪ cs).card : ℚ)) ≤ 2/5 := by
      calc 2/5 * (((ps ∩ cs).card : ℚ) / ((ps ∪ cs).card : ℚ))
          ≤ 2/5 * 1 := by
            exact mul_le_mul_of_nonneg_left hfrac1 (by norm_num)
        _ = 2/5 := by norm_num
    have hmul0 : 0 ≤ 2/5 * (((ps ∩ cs).card : ℚ) / ((ps ∪ cs).card : ℚ)) := by
      positivity
    have hsum1 : t + 2/5 * (((ps ∩ cs).card : ℚ) / ((ps ∪ cs).card : ℚ)) ≤ 4/5 := by
      linarith
    have hsum0 : 0 ≤ t + 2/5 * (((ps ∩ cs).card : ℚ) / ((ps ∪ cs).card : ℚ)) := by
      linarith
    have hcalc : calcSimilarity qi c =
        t + 2/5 * (((ps ∩ cs).card : ℚ) / ((ps ∪ cs).card : ℚ)) := by
      simp only [calcSimilarity, ← hps, ← hcs, ← ht]
      rw [if_pos hcond, if_pos huni, ratMin, if_pos (by linarith : t + 2/5 *
        (((ps ∩ cs).card : ℚ) / ((ps ∪ cs).card : ℚ)) ≤ 1)]
    have hspec : specSimilarity qi c =
        t + 2/5 * (((ps ∩ cs).card : ℚ) / ((ps ∪ cs).card : ℚ)) := by
      simp only [specSimilarity, ← hps, ← hcs, ← ht]
      rw [if_pos ⟨hpsne, hcsne⟩, mul_div_assoc,
        min_eq_left (by linarith : t + 2/5 *
          (((ps ∩ cs).card : ℚ) / ((ps ∪ cs).card : ℚ)) ≤ 1),
        max_eq_right hsum0]
    rw [hcalc, hspec]
    exact ⟨rfl, hsum0, hsum1⟩
  · have hspec_cond : ¬ (ps.Nonempty ∧ cs.Nonempty) := by
      rintro ⟨h₁, h₂⟩
      exact hcond ⟨(Finset.card_pos.mpr h₁).ne', (Finset.card_pos.mpr h₂).ne'⟩
    have hcalc : calcSimilarity qi c = t := by
      simp only [calcSimilarity, ← hps, ← hcs, ← ht]
      rw [if_neg hcond, add_zero, ratMin, if_pos (by linarith : t ≤ 1)]
    have hspec : specSimilarity qi c = t := by
      simp only [specSimilarity, ← hps, ← hcs, ← ht]
      rw [if_neg hspec_cond, add_zero,
        min_eq_left (by linarith : t ≤ 1), max_eq_right ht0]
    rw [hcalc, hspec]
    exact ⟨rfl, ht0, by linarith⟩

end AgentReuse

namespace AgentReuse

theorem calcSimilarity_self (c : ConfigRecord) (hne : c.payload.tech_stack ≠ []) :
    calcSimilarity (selfQuery c) c = 4/5 := by
  obtain ⟨a, ha⟩ := List.exists_mem_of_ne_nil _ hne
  have hmem : a ∈ c.payload.tech_stack.toFinset := List.mem_toFinset.mpr ha
  have hcard : c.payload.tech_stack.toFinset.card ≠ 0 :=
    (Finset.card_pos.mpr ⟨a, hmem⟩).ne'
  have hq : ((c.payload.tech_stack.toFinset.card : ℕ) : ℚ) ≠ 0 := by exact_mod_cast hcard
  simp only [calcSimilarity, selfQuery, Finset.inter_self, Finset.union_self]
  rw [if_pos trivial, if_pos ⟨hcard, hcard⟩, if_pos (Nat.pos_of_ne_zero hcard),
    div_self hq, ratMin, if_pos (by norm_num : (2:ℚ)/5 + 2/5 * 1 ≤ 1)]
  norm_num

/-- Claim C4: the similarity score agrees with the spec formula (0.4 for an
exact project-type match plus 0.4 times the tech-stack Jaccard index when
both stacks are non-empty, clamped into [0,1]); it always lies in
[0, 4/5], so no pair of inputs ever scores above 0.8; and the self-match of
a record with a project type and a non-empty tech stack scores exactly
4/5 = 0.8. -/
theorem similarity_weighted_and_bounded (pi : ProjectInfo) (c : ConfigRecord) :
    calcSimilarity pi c = specSimilarity pi c ∧
    0 ≤ calcSimilarity pi c ∧ calcSimilarity pi c ≤ 4/5 ∧
    (c.payload.tech_stack ≠ [] → calcSimilarity (selfQuery c) c = 4/5) :=
  ⟨(calcSimilarity_eq_spec_and_bounds pi c).1,
   (calcSimilarity_eq_spec_and_bounds pi c).2.1,
   (calcSimilarity_eq_spec_and_bounds pi c).2.2,
   fun hne => calcSimilarity_self c hne⟩

/-- Evaluate `round2` at a concrete rational from integer bracketing of
`100 * q + 1/2`. -/
theorem round2_eval (q : ℚ) (n : ℤ) (h₁ : (n : ℚ) ≤ 100 * q + 1/2)
    (h₂ : 100 * q + 1/2 < (n : ℚ) + 1) : round2 q = (n : ℚ) / 100 := by
  have hle : n ≤ Rat.floor (100 * q + 1/2) := Rat.le_floor.mpr h₁
  have hlt : Rat.floor (100 * q + 1/2) < n + 1 := by
    by_contra hcon
    push_neg at hcon
    have hcast : ((n + 1 : ℤ) : ℚ) ≤ 100 * q + 1/2 := Rat.le_floor.mp hcon
    push_cast at hcast
    linarith
  have hfl : Rat.floor (100 * q + 1/2) = n := le_antisymm (by omega) hle
  rw [round2, hfl]

/-- The example payload of `agent_reuse.py`'s `__main__` block (spec §8
record A). -/
def cfgA : ConfigPayload :=
  { project_type := "programming"
    project_name := "my-web-app"
    tech_stack := ["TypeScript", "React", "Next.js"]
    agents_used := ["project-analyzer", "security-analyzer"]
    skills_generated := ["security-scanner", "test-generator"]
    commands_generated := ["/security-check", "/generate-tests"]
    hooks_generated := ["pre-commit-security"]
    success_metrics := [("time_saved", 50), ("issues_prevented", 3)]
    user_satisfaction := 5 }

/-- Record A as stored by `save_configuration`. -/
def recordA : ConfigRecord :=
  { payload := cfgA, config_id := "cfgA", created_at := "t0", reuse_count := 0 }

/-- Record A's index entry. -/
def entryA : IndexEntry :=
  { config_id := "cfgA"
    project_type := "programming"
    project_name := "my-web-app"
    tech_stack := ["TypeScript", "React", "Next.js"]
    created_at := "t0"
    reuse_count := 0 }

/-- A store holding exactly record A. -/
def storeA : Store := (saveConfiguration ⟨[], []⟩ cfgA "cfgA" "t0").2

/-- Query Q of spec §8: same project type, tech stack sharing TypeScript
and React with record A but with Vite instead of Next.js. -/
def qA : ProjectInfo := ⟨some "programming", ["TypeScript", "React", "Vite"]⟩

theorem calcSimilarity_qA_recordA : calcSimilarity qA recordA = 3/5 := by
  have h1 : (qA.tech_stack.toFinset ∩ recordA.payload.tech_stack.toFinset).card = 2 := by
    decide
  have h2 : (qA.tech_stack.toFinset ∪ recordA.payload.tech_stack.toFinset).card = 4 := by
    decide
  have h3 : qA.tech_stack.toFinset.card = 3 := by decide
  have h4 : recordA.payload.tech_stack.toFinset.card = 3 := by decide
  have h5 : qA.project_type = some recordA.payload.project_type := by decide
  simp only [calcSimilarity, h1, h2, h3, h4, h5, if_pos rfl]
  norm_num [ratMin]

theorem scanIndex_storeA (m : ℚ) :
    scanIndex storeA qA m [entryA] =
      if m ≤ 3/5 then [⟨entryA, 3/5, recordA⟩] else [] := by
  have hload : loadConfiguration storeA entryA.config_id = some recordA := by decide
  have hround : round2 ((3:ℚ)/5) = 3/5 := by
    rw [round2_eval ((3:ℚ)/5) 60 (by norm_num) (by norm_num)]
    norm_num
  simp only [scanIndex, hload, calcSimilarity_qA_recordA, hround]

/-- Claim C5: the concrete spec §8 example: score(Q, A) = 0.6; with
threshold 0.7 `find_similar` returns the empty list; with threshold 0.5 it
returns record A carrying score 0.6. -/
theorem example_query_run :
    calcSimilarity qA recordA = 3/5 ∧
    findSimilar storeA qA (7/10) = [] ∧
    findSimilar storeA qA (1/2) = [⟨entryA, 3/5, recordA⟩] := by
  have hidx : ∀ m : ℚ, findSimilarUnsorted storeA qA m = scanIndex storeA qA m [entryA] :=
    fun m => rfl
  refine ⟨calcSimilarity_qA_recordA, ?_, ?_⟩
  · rw [findSimilar, hidx, scanIndex_storeA, if_neg (by norm_num : ¬ ((7:ℚ)/10 ≤ 3/5))]
    rfl
  · rw [findSimilar, hidx, scanIndex_storeA, if_pos (by norm_num : ((1:ℚ)/2 ≤ 3/5))]
    rfl

end AgentReuse

namespace AgentReuse

/-- A payload with a different project type and tech stack sharing one of
three technologies with the query below. -/
def cfgB : ConfigPayload :=
  { project_type := "other"
    project_name := "proj-b"
    tech_stack := ["a", "b", "c"]
    agents_used := []
    skills_generated := []
    commands_generated := []
    hooks_generated := []
    success_metrics := []
    user_satisfaction := 3 }

/-- Record B as stored by `save_configuration`. -/
def recordB : ConfigRecord :=
  { payload := cfgB, config_id := "cfgB", created_at := "t1", reuse_count := 0 }

/-- Record B's index entry. -/
def entryB : IndexEntry :=
  { config_id := "cfgB"
    project_type := "other"
    project_name := "proj-b"
    tech_stack := ["a", "b", "c"]
    created_at := "t1"
    reuse_count := 0 }

/-- A store holding exactly record B. -/
def storeB : Store := (saveConfiguration ⟨[], []⟩ cfgB "cfgB" "t1").2

/-- A query with a non-matching project type whose stack yields Jaccard
index 1/3 against record B, so the unrounded score is 2/15 = 0.1333…. -/
def qB : ProjectInfo := ⟨some "programming", ["a"]⟩

theorem calcSimilarity_qB_recordB : calcSimilarity qB recordB = 2/15 := by
  have h1 : (qB.tech_stack.toFinset ∩ recordB.payload.tech_stack.toFinset).card = 1 := by
    decide
  have h2 : (qB.tech_stack.toFinset ∪ recordB.payload.tech_stack.toFinset).card = 3 := by
    decide
  have h3 : qB.tech_stack.toFinset.card = 1 := by decide
  have h4 : recordB.payload.tech_stack.toFinset.card = 3 := by decide
  have h5 : ¬ (qB.project_type = some recordB.payload.project_type) := by decide
  simp only [calcSimilarity, h1, h2, h3, h4, if_neg h5]
  norm_num [ratMin]

theorem findSimilar_storeB :
    findSimilar storeB qB (2/15) = [⟨entryB, 13/100, recordB⟩] := by
  have hload : loadConfiguration storeB entryB.config_id = some recordB := by decide
  have hround : round2 ((2:ℚ)/15) = 13/100 := by
    rw [round2_eval ((2:ℚ)/15) 13 (by norm_num) (by norm_num)]
    norm_num
  have hscan : scanIndex storeB qB (2/15) [entryB] = [⟨entryB, 13/100, recordB⟩] := by
    simp only [scanIndex, hload, calcSimilarity_qB_recordB, hround, if_pos (le_refl ((2:ℚ)/15))]
  have hidx : findSimilarUnsorted storeB qB (2/15) = scanIndex storeB qB (2/15) [entryB] := rfl
  rw [findSimilar, hidx, hscan]
  rfl

/-- Claim C6 refuted at a concrete input: with the store holding record B
and threshold 2/15, `find_similar` returns exactly one entry whose carried
score is the rounded value 13/100 = 0.13, which is strictly below the
requested threshold 2/15 = 0.1333… (the filter uses the unrounded score,
the entry reports the rounded one). -/
theorem entry_score_beneath_threshold :
    findSimilar storeB qB (2/15) = [⟨entryB, 13/100, recordB⟩] ∧
    (13:ℚ)/100 < 2/15 :=
  ⟨findSimilar_storeB, by norm_num⟩

/-- Claim C6 as amended: every entry returned by `find_similar` has
unrounded similarity at least the requested threshold and carries that
similarity rounded to two decimals (which can dip below the threshold);
the output is sorted descending by the carried (rounded) score; and for
every score value, the entries carrying it appear in exactly the original
index order (the sort is stable, so equal carried scores keep the
insertion order of `findSimilarUnsorted`, which scans the index in
order). -/
theorem find_similar_filter_sorted_stable (s : Store) (pi : ProjectInfo) (minSim : ℚ) :
    (∀ r ∈ findSimilar s pi minSim,
      minSim ≤ calcSimilarity pi r.full_config ∧
      r.similarity = round2 (calcSimilarity pi r.full_config)) ∧
    (findSimilar s pi minSim).Pairwise (fun a b => simKey b ≤ simKey a) ∧
    (∀ q : ℚ, (findSimilar s pi minSim).filter (fun r => decide (simKey r = q)) =
      (findSimilarUnsorted s pi minSim).filter (fun r => decide (simKey r = q))) := by
  refine ⟨?_, sortDesc_pairwise _, fun q => filter_sortDesc simKey q _⟩
  intro r hr
  exact scanIndex_mem (sortDesc_mem.mp hr)

theorem find_similar_filter_sorted_stable_witness :
    (2:ℚ)/15 ≤ calcSimilarity qB recordB ∧
    (⟨entryB, 13/100, recordB⟩ : SimilarResult).similarity =
      round2 (calcSimilarity qB recordB) :=
  (find_similar_filter_sorted_stable storeB qB (2/15)).1 ⟨entryB, 13/100, recordB⟩
    (by rw [findSimilar_storeB]; exact List.mem_singleton.mpr rfl)

theorem similarity_weighted_and_bounded_witness :
    calcSimilarity (selfQuery recordA) recordA = 4/5 :=
  (similarity_weighted_and_bounded (selfQuery recordA) recordA).2.2.2 (by decide)

/-- A store whose only document is present but unparseable. -/
def corruptStore : Store := ⟨[], [("c1", Doc.corrupt)]⟩

/-- Claim C7 refuted at a concrete input: the document for id `c1` exists
but is corrupt, yet `_load_configuration` returns the very same `none` it
returns for the unknown id `c9` — no distinct corrupt-record condition is
surfaced — and a corrupt index document is silently read as the empty
configuration list, exactly like a missing one. -/
theorem corrupt_document_reads_as_absent :
    docGet corruptStore.docs "c1" = some Doc.corrupt ∧
    loadConfiguration corruptStore "c1" = none ∧
    docGet corruptStore.docs "c9" = none ∧
    loadConfiguration corruptStore "c9" = none ∧
    loadIndex (some IndexDoc.corrupt) = [] ∧
    loadIndex none = [] := by decide

/-- Claim C7 as amended: a stored-but-unparseable record document makes
`_load_configuration` return the absent result `none`, indistinguishable
from not-found, and a corrupt index document silently defaults to the
empty configuration list — corruption is never surfaced as a distinct
condition. -/
theorem corrupt_read_silent_fallback (s : Store) (id : String)
    (h : docGet s.docs id = some Doc.corrupt) :
    loadConfiguration s id = none ∧ loadIndex (some IndexDoc.corrupt) = [] := by
  refine ⟨?_, rfl⟩
  simp only [loadConfiguration, h]

theorem corrupt_read_silent_fallback_witness :
    loadConfiguration corruptStore "c1" = none ∧
    loadIndex (some IndexDoc.corrupt) = [] :=
  corrupt_read_silent_fallback corruptStore "c1" (by decide)

/-- Claim C8: round-trip — loading the id returned by `save_configuration`
yields exactly the input payload extended with the added `config_id`,
`created_at` and `reuse_count = 0`. -/
theorem save_then_load_round_trip (s : Store) (cfg : ConfigPayload) (id now : String) :
    loadConfiguration (saveConfiguration s cfg id now).2 (saveConfiguration s cfg id now).1 =
      some { payload := cfg, config_id := id, created_at := now, reuse_count := 0 } := by
  simp only [saveConfiguration, loadConfiguration, docGet_docSet_self]

end AgentReuse

namespace AgentReuse

theorem reuse_step (s : Store) (id : String) (c : ConfigRecord)
    (hdoc : docGet s.docs id = some (Doc.parsed c))
    (hidx : ∀ e ∈ s.index, e.config_id = id → e.reuse_count = c.reuse_count) :
    (reuseConfiguration s id).1 = some { c with reuse_count := c.reuse_count + 1 } ∧
    docGet (reuseConfiguration s id).2.docs id =
      some (Doc.parsed { c with reuse_count := c.reuse_count + 1 }) ∧
    ∀ e ∈ (reuseConfiguration s id).2.index, e.config_id = id →
      e.reuse_count = c.reuse_count + 1 := by
  have hload : loadConfiguration s id = some c := by
    simp only [loadConfiguration, hdoc]
  simp only [reuseConfiguration, hload]
  refine ⟨trivial, docGet_docSet_self _ _ _, ?_⟩
  intro e he heq
  obtain ⟨e₀, he₀, hmap⟩ := List.mem_map.mp he
  by_cases h0 : e₀.config_id = id
  · rw [if_pos h0] at hmap
    subst hmap
    simp [hidx e₀ he₀ h0]
  · rw [if_neg h0] at hmap
    subst hmap
    exact absurd heq h0

theorem reuseN_from_save (s : Store) (cfg : ConfigPayload) (id now : String)
    (hfresh : ∀ e ∈ s.index, e.config_id ≠ id) (n : Nat) :
    docGet (reuseN (saveConfiguration s cfg id now).2 id n).docs id =
      some (Doc.parsed ⟨cfg, id, now, n⟩) ∧
    ∀ e ∈ (reuseN (saveConfiguration s cfg id now).2 id n).index,
      e.config_id = id → e.reuse_count = n := by
  induction n with
  | zero =>
    constructor
    · simp only [reuseN, saveConfiguration]
      exact docGet_docSet_self _ _ _
    · intro e he heq
      simp only [reuseN, saveConfiguration] at he
      rcases List.mem_append.mp he with h₁ | h₁
      · exact absurd heq (hfresh e h₁)
      · rw [List.mem_singleton.mp h₁]
  | succ k ih =>
    have hstep := reuse_step (reuseN (saveConfiguration s cfg id now).2 id k) id
      { payload := cfg, config_id := id, created_at := now, reuse_count := k }
      ih.1 ih.2
    exact ⟨hstep.2.1, hstep.2.2⟩

/-- Claim C9: `reuse_configuration` fails (returns `none`, leaving the
store untouched) on an id whose record cannot be loaded; on a loadable id
it increments `reuse_count` on the full record and on every matching index
entry in the same step, preserving the record/index agreement; and after
`n` calls on a freshly saved configuration both the record and every
matching index entry carry `reuse_count = n`. -/
theorem reuse_increments_in_sync (s : Store) (cfg : ConfigPayload) (id now : String)
    (hfresh : ∀ e ∈ s.index, e.config_id ≠ id) :
    (∀ (t : Store) (unknownId : String), loadConfiguration t unknownId = none →
      reuseConfiguration t unknownId = (none, t)) ∧
    (∀ (t : Store) (c : ConfigRecord),
      docGet t.docs id = some (Doc.parsed c) →
      (∀ e ∈ t.index, e.config_id = id → e.reuse_count = c.reuse_count) →
      (reuseConfiguration t id).1 = some { c with reuse_count := c.reuse_count + 1 } ∧
      docGet (reuseConfiguration t id).2.docs id =
        some (Doc.parsed { c with reuse_count := c.reuse_count + 1 }) ∧
      ∀ e ∈ (reuseConfiguration t id).2.index, e.config_id = id →
        e.reuse_count = c.reuse_count + 1) ∧
    (∀ n : Nat,
      docGet (reuseN (saveConfiguration s cfg id now).2 id n).docs id =
        some (Doc.parsed ⟨cfg, id, now, n⟩) ∧
      ∀ e ∈ (reuseN (saveConfiguration s cfg id now).2 id n).index,
        e.config_id = id → e.reuse_count = n) := by
  refine ⟨?_, fun t c hdoc hidx => reuse_step t id c hdoc hidx,
    fun n => reuseN_from_save s cfg id now hfresh n⟩
  intro t unknownId h
  simp only [reuseConfiguration, h]

theorem reuse_increments_in_sync_witness :
    docGet (reuseN (saveConfiguration ⟨[], []⟩ cfgA "cfgA" "t0").2 "cfgA" 2).docs "cfgA" =
      some (Doc.parsed ⟨cfgA, "cfgA", "t0", 2⟩) :=
  ((reuse_increments_in_sync ⟨[], []⟩ cfgA "cfgA" "t0" (by decide)).2.2 2).1

end AgentReuse

namespace Rollback

theorem rollback_is_one_shot_witness :
    rollback (rollback doubleTrackStart "t1").1 "t2" =
      ((rollback doubleTrackStart "t1").1, .alreadyRolledBack) :=
  ((rollback_is_one_shot doubleTrackStart freshManifest "t1" "t2" rfl).2.1 rfl).choose_spec.2.2

/-- A concrete state exercising both rollback loops: one backed-up path and
one created path. -/
def fullRunState : State :=
  { fs := { files := [("a.txt", "new"), ("b.txt", "bb")], failing := [] }
    manifest := some
      { backup_id := "b1"
        session_id := "s1"
        created_at := "t0"
        description := "test"
        backed_up_files := ["a.txt"]
        created_files := ["b.txt"]
        can_rollback := true
        rolled_back_at := none }
    snapshots := [("a.txt", "orig")] }

theorem rollback_full_attempt_aggregation_witness :
    ∃ st₁ r, rollback fullRunState "t1" = (st₁, .report r) ∧
      st₁.manifest = some
        { backup_id := "b1"
          session_id := "s1"
          created_at := "t0"
          description := "test"
          backed_up_files := ["a.txt"]
          created_files := ["b.txt"]
          can_rollback := false
          rolled_back_at := some "t1" } ∧
      (r.success = true ↔ r.errors = []) ∧
      (∀ p ∈ ["a.txt"],
        p ∈ r.files_restored ∨ ("Backup not found: " ++ p) ∈ r.errors ∨
          ("Error restoring " ++ p) ∈ r.errors) ∧
      (∀ p ∈ ["b.txt"],
        p ∈ r.files_deleted ∨ ("Error deleting " ++ p) ∈ r.errors ∨
          fsRead st₁.fs p = none) :=
  rollback_full_attempt_aggregation fullRunState
    { backup_id := "b1"
      session_id := "s1"
      created_at := "t0"
      description := "test"
      backed_up_files := ["a.txt"]
      created_files := ["b.txt"]
      can_rollback := true
      rolled_back_at := none } "t1" rfl rfl

theorem track_missing_path_noop_witness :
    backupFileBeforeChange doubleTrackStart "missing.txt" = doubleTrackStart :=
  track_missing_path_noop doubleTrackStart "missing.txt" (by decide)

end Rollback
